import Mathlib

/-!
Verification of the EstateFlow property-listing service
(src/services/properties.service.ts) against its natural-language
specification.

The service is embedded shallowly: the relational store is a record of
row lists, each public operation is a pure function from the store (plus
the inputs the runtime supplies: the current time, generated ids via a
counter, a delivery oracle for the email sender) to the new store, a
trace of write/side effects, and an Except-result mirroring the
operation's thrown errors and return value.  JavaScript truthiness
(`x || d`) is made explicit with the helpers strOr / optStrOr / optIntOr.
-/

namespace EstateFlow

/-- TS `a || b` for strings: the empty string is falsy. -/
def strOr (a b : String) : String := if a = "" then b else a

/-- TS `a || b` where `a` is an optional string (undefined or falsy falls through). -/
def optStrOr (a : Option String) (b : String) : String :=
  match a with
  | none => b
  | some s => strOr s b

/-- TS `a || b` where `a` is an optional number: undefined and 0 are falsy. -/
def optIntOr (a : Option Int) (b : Int) : Int :=
  match a with
  | none => b
  | some n => if n = 0 then b else n

/-- A row of the properties table. -/
structure Property where
  id : String
  ownerId : String
  title : String
  description : String
  facilities : String
  propertyType : String
  transactionType : String
  price : Int
  currency : String
  size : Int
  rooms : Int
  address : String
  status : String
  documentUrl : String
  verificationComments : String
  isVerified : Bool
  createdAt : Nat
  updatedAt : Nat
deriving Repr, DecidableEq

/-- A row of the property_images table. -/
structure PropertyImage where
  id : String
  propertyId : String
  imageUrl : String
  isPrimary : Bool
deriving Repr, DecidableEq

/-- A row of the property_views table (read-only for this service). -/
structure PropertyView where
  id : String
  propertyId : String
  viewedAt : Nat
deriving Repr, DecidableEq

/-- A row of the pricing_history table. -/
structure PricingHistory where
  id : String
  propertyId : String
  price : Int
  currency : String
  effectiveDate : Nat
deriving Repr, DecidableEq

/-- A row of the users table. -/
structure User where
  id : String
  email : String
  username : String
  role : String
  listingLimit : Option Int
  isEmailVerified : Bool
  paypalCredentials : String
  createdAt : Nat
  updatedAt : Nat
deriving Repr, DecidableEq

/-- A row of the wishlist table. -/
structure WishlistEntry where
  userId : String
  propertyId : String
deriving Repr, DecidableEq

/-- A row of the conversations table. -/
structure Conversation where
  id : String
  userId : String
  systemPromptId : Option String
  isActive : Bool
deriving Repr, DecidableEq

/-- A row of the messages table. -/
structure Message where
  id : String
  conversationId : String
  sender : String
  content : String
  createdAt : Nat
  isVisible : Bool
deriving Repr, DecidableEq

/-- A row of the system_prompts table. -/
structure SystemPrompt where
  id : String
  content : String
deriving Repr, DecidableEq

/-- One role-tagged entry of an AI chat-session history. -/
structure HistoryEntry where
  role : String
  text : String
deriving Repr, DecidableEq

/-- An AI chat session is modelled by the history it was seeded with. -/
def ChatSession := List HistoryEntry
deriving Repr, DecidableEq

/-- The store plus the process-wide AI-session registry and the id
generator the database supplies for inserted rows. -/
structure DB where
  properties : List Property := []
  users : List User := []
  propertyImages : List PropertyImage := []
  propertyViews : List PropertyView := []
  pricingHistory : List PricingHistory := []
  wishlist : List WishlistEntry := []
  conversations : List Conversation := []
  messages : List Message := []
  systemPrompts : List SystemPrompt := []
  activeChatSessions : List (String × ChatSession) := []
  genCounter : Nat := 0
deriving Repr, DecidableEq

/-- The error kinds the service throws (distinguished in TS only via the
message: NotFound messages, the quota message, the deleteProperty
wrapper, and the TypeError raised by dereferencing undefined). -/
inductive Err where
  | notFound (msg : String)
  | quotaExceeded
  | deleteFailed (msg : String)
  | typeError
deriving Repr, DecidableEq

/-- `error.message` as used by the deleteProperty catch block. -/
def Err.message : Err → String
  | .notFound m => m
  | .quotaExceeded => "Listings limit reached"
  | .deleteFailed m => "Failed to delete property: " ++ m
  | .typeError => "Cannot read properties of undefined"

def Err.isNotFound : Err → Bool
  | .notFound _ => true
  | _ => false

/-- Whether an operation result is a NotFound failure. -/
def resultIsNotFound {α : Type} : Except Err α → Bool
  | .error e => e.isNotFound
  | .ok _ => false

/-- Write/side effects issued against the store and the collaborators,
in program order. Reads are not traced except the conversations scan of
verifyProperty, which the spec singles out. -/
inductive Effect where
  | insertProperty (id : String)
  | updateUserListingLimit (userId : String) (newLimit : Option Int)
  | insertImages (propertyId : String) (count : Nat)
  | deleteImages (propertyId : String)
  | insertPricing (propertyId : String) (price : Int) (currency : String)
  | deleteRows (propertyId : String)
  | updateRow (id : String)
  | sendNotification (email name address : String) (oldPrice newPrice : Int)
      (delivered : Bool)
  | readConversations
  | insertMessage (conversationId : String)
  | updateMessage (messageId : String)
  | setSession (conversationId : String)
deriving Repr, DecidableEq

def Effect.isSend : Effect → Bool
  | .sendNotification _ _ _ _ _ _ => true
  | _ => false

/-- The redacted owner projection attached to aggregates. -/
structure OwnerOut where
  id : String
  email : String
  username : String
  role : String
deriving Repr, DecidableEq

/-- `{id: owner?.id ?? "", ...}`: fields degrade to empty strings when
the joined owner row is missing. -/
def ownerProj (owner : Option User) : OwnerOut :=
  { id := (owner.map (fun u => u.id)).getD ""
    email := (owner.map (fun u => u.email)).getD ""
    username := (owner.map (fun u => u.username)).getD ""
    role := (owner.map (fun u => u.role)).getD "" }

/-- The PropertyWithRelations aggregate returned by the read path. -/
structure PropertyWithRelations extends Property where
  images : List PropertyImage
  views : List PropertyView
  pricingHistory : List PricingHistory
  owner : OwnerOut
  isWished : Bool
deriving Repr, DecidableEq

/-- isPropertyWished: false for a falsy userId, else a COUNT(*) > 0
existence check on the wishlist table. -/
def isPropertyWished (db : DB) (propertyId : String) (userId : Option String) :
    Bool :=
  match userId with
  | none => false
  | some uid =>
    if uid = "" then false
    else
      (db.wishlist.filter
        (fun w => w.propertyId == propertyId && w.userId == uid)).length > 0

/-- The switch on the filter parameter: three verified-status branches
and a deliberate unfiltered fallthrough. -/
def filteredProperties (db : DB) (filterParam : String) : List Property :=
  if filterParam = "active" then
    db.properties.filter (fun p => p.status == "active" && p.isVerified)
  else if filterParam = "sold_rented" then
    db.properties.filter
      (fun p => (p.status == "sold" || p.status == "rented") && p.isVerified)
  else if filterParam = "inactive" then
    db.properties.filter (fun p => p.status == "inactive" && p.isVerified)
  else
    db.properties

/-- getProperties: filter switch (the parameter defaults to "active"
when absent), left join to owners, batched child fetches partitioned in
memory, per-property wish checks, redacted owner projection. -/
def getProperties (db : DB) (filterParam : Option String)
    (userId : Option String) : List PropertyWithRelations :=
  let fp := filterParam.getD "active"
  let propertiesList := (filteredProperties db fp).map
    (fun p => (p, db.users.find? (fun u => u.id == p.ownerId)))
  if propertiesList.length = 0 then []
  else
    let propertyIds := propertiesList.map (fun pr => pr.1.id)
    let images := db.propertyImages.filter
      (fun img => propertyIds.contains img.propertyId)
    let views := db.propertyViews.filter
      (fun v => propertyIds.contains v.propertyId)
    let pricing := db.pricingHistory.filter
      (fun ph => propertyIds.contains ph.propertyId)
    let wishedStatuses := propertyIds.map
      (fun pid => isPropertyWished db pid userId)
    (propertiesList.zip wishedStatuses).map (fun pw =>
      { toProperty := pw.1.1
        images := images.filter (fun img => img.propertyId == pw.1.1.id)
        views := views.filter (fun v => v.propertyId == pw.1.1.id)
        pricingHistory := pricing.filter (fun ph => ph.propertyId == pw.1.1.id)
        owner := ownerProj pw.1.2
        isWished := pw.2 })

/-- One row of the four-way left join issued by getProperty. -/
structure JoinRow where
  property : Property
  image : Option PropertyImage
  view : Option PropertyView
  pricing : Option PricingHistory
  owner : Option User
  isWished : Bool
deriving Repr, DecidableEq

/-- SQL left-join semantics on a child table: no match yields a single
null row, otherwise one row per match. -/
def leftJoinOpts {α : Type} (l : List α) : List (Option α) :=
  match l with
  | [] => [none]
  | _ => l.map some

/-- The cross product of the three left-joined child sets for one
property row: one JoinRow per image×view×pricing combination. -/
def crossRows (p : Property) (own : Option User) (wc : Bool)
    (imgs : List PropertyImage) (vws : List PropertyView)
    (phs : List PricingHistory) : List JoinRow :=
  (leftJoinOpts imgs).flatMap (fun img =>
    (leftJoinOpts vws).flatMap (fun v =>
      (leftJoinOpts phs).map (fun ph =>
        { property := p, image := img, view := v, pricing := ph,
          owner := own, isWished := wc })))

/-- The join rows contributed by one property row: owner via the user
join, the wish column (EXISTS subquery for a truthy userId, else
FALSE), and the child cross product. -/
def joinRowsFor (db : DB) (userId : Option String) (p : Property) :
    List JoinRow :=
  crossRows p (db.users.find? (fun u => u.id == p.ownerId))
    (match userId with
      | none => false
      | some uid =>
        if uid = "" then false
        else db.wishlist.any (fun w => w.propertyId == p.id && w.userId == uid))
    (db.propertyImages.filter (fun img => img.propertyId == p.id))
    (db.propertyViews.filter (fun v => v.propertyId == p.id))
    (db.pricingHistory.filter (fun ph => ph.propertyId == p.id))

/-- The row set of getProperty's multi-join across images, views and
pricing history (a cross product of the three child sets). -/
def getPropertyRows (db : DB) (propertyId : String) (userId : Option String) :
    List JoinRow :=
  (db.properties.filter (fun p => p.id == propertyId)).flatMap
    (joinRowsFor db userId)

/-- `acc.xs.push(x)` guarded by `!acc.xs.some(y => y.id === x.id)`. -/
def pushDedup {α : Type} (key : α → String) (acc : List α) (item : Option α) :
    List α :=
  match item with
  | none => acc
  | some x => if acc.any (fun y => key y == key x) then acc else acc ++ [x]

/-- The `{} as PropertyWithRelations` initial accumulator: every field
at its empty/zero value (in particular `acc.id` is falsy). -/
def emptyPWR : PropertyWithRelations :=
  { id := "", ownerId := "", title := "", description := "", facilities := "",
    propertyType := "", transactionType := "", price := 0, currency := "",
    size := 0, rooms := 0, address := "", status := "", documentUrl := "",
    verificationComments := "", isVerified := false, createdAt := 0,
    updatedAt := 0, images := [], views := [], pricingHistory := [],
    owner := ownerProj none, isWished := false }

/-- One step of getProperty's reduce: initialize the aggregate from the
first row (the captured isPropertyWished value, not the row's wish
column), then push each child de-duplicated by child id. -/
def foldRow (isWished : Bool) (acc : PropertyWithRelations) (row : JoinRow) :
    PropertyWithRelations :=
  let acc :=
    if acc.id = "" then
      { toProperty := row.property, images := [], views := [],
        pricingHistory := [], owner := ownerProj row.owner,
        isWished := isWished }
    else acc
  { acc with
    images := pushDedup (fun i => i.id) acc.images row.image
    views := pushDedup (fun v => v.id) acc.views row.view
    pricingHistory := pushDedup (fun p => p.id) acc.pricingHistory row.pricing }

/-- getProperty: multi-join select, NotFound when the row set is empty,
then the de-duplicating reduce into one aggregate. -/
def getProperty (db : DB) (propertyId : String) (userId : Option String) :
    Except Err PropertyWithRelations :=
  let rows := getPropertyRows db propertyId userId
  if rows.length = 0 then
    .error (.notFound ("Property with ID " ++ propertyId ++ " not found"))
  else
    let isWished := isPropertyWished db propertyId userId
    .ok (rows.foldl (foldRow isWished) emptyPWR)

/-- Image inputs of the create/update payloads. -/
structure ImageInput where
  imageUrl : String
  isPrimary : Bool
deriving Repr, DecidableEq

/-- The create payload. Fields with TS falsy-based defaults are optional. -/
structure CreatePropertyInput where
  ownerId : String
  title : String
  description : String
  facilities : String
  propertyType : String
  transactionType : String
  price : Int
  currency : Option String := none
  size : Int
  rooms : Int
  address : String
  status : Option String := none
  documentUrl : String
  verificationComments : String
  images : Option (List ImageInput) := none
deriving Repr, DecidableEq

/-- The shape addNewProperty returns: the property spread together with
inserted images, empty views, and the one-row price history. -/
structure CreateResult extends Property where
  images : List PropertyImage
  views : List PropertyView
  pricingHistory : List PricingHistory
deriving Repr, DecidableEq

/-- Rows of a bulk image insert for one property, with store-generated
ids drawn from the id counter. -/
def mkImageRows (counter : Nat) (pid : String) :
    List ImageInput → List PropertyImage
  | [] => []
  | img :: rest =>
    { id := "img-gen-" ++ toString counter, propertyId := pid,
      imageUrl := img.imageUrl, isPrimary := img.isPrimary }
      :: mkImageRows (counter + 1) pid rest

/-- addNewProperty: owner lookup (NotFound), private_seller quota guard
(QuotaExceeded before any write), property insert, the quirky
listingLimit decrement (skipped when the limit is null or exactly 0),
optional image insert, and the single initial pricing-history row. -/
def addNewProperty (db : DB) (now : Nat) (input : CreatePropertyInput) :
    DB × List Effect × Except Err CreateResult :=
  match db.users.find? (fun u => u.id == input.ownerId) with
  | none => (db, [], .error (.notFound "User not found"))
  | some user =>
    let role := user.role
    let listingLimit := user.listingLimit
    if role == "private_seller"
        && (match listingLimit with
            | some l => decide (l ≤ 0)
            | none => false) then
      (db, [], .error .quotaExceeded)
    else
      let propId := "prop-gen-" ++ toString db.genCounter
      let property : Property :=
        { id := propId, ownerId := input.ownerId, title := input.title,
          description := input.description, facilities := input.facilities,
          propertyType := input.propertyType,
          transactionType := input.transactionType, price := input.price,
          currency := optStrOr input.currency "USD", size := input.size,
          rooms := input.rooms, address := input.address,
          status := optStrOr input.status "active",
          documentUrl := input.documentUrl,
          verificationComments := input.verificationComments,
          isVerified := false, createdAt := now, updatedAt := now }
      let db1 := { db with properties := db.properties ++ [property],
                           genCounter := db.genCounter + 1 }
      let tr1 := [Effect.insertProperty propId]
      -- the owner row is re-selected after the insert
      let ownerData := db1.users.find? (fun u => u.id == input.ownerId)
      -- `role === "private_seller" && (listingLimit || 0) !== 0`
      let needDec := role == "private_seller"
        && (match listingLimit with
            | some l => decide (l ≠ 0)
            | none => false)
      -- `(ownerData?.listingLimit || 1) - 1`
      let newLimit :=
        (match ownerData with
         | some od =>
           (match od.listingLimit with
            | some l => if l = 0 then 1 else l
            | none => 1)
         | none => 1) - 1
      let step2 :=
        if needDec then
          ({ db1 with users := db1.users.map (fun u =>
              if u.id == input.ownerId then { u with listingLimit := some newLimit }
              else u) },
           tr1 ++ [Effect.updateUserListingLimit input.ownerId (some newLimit)])
        else (db1, tr1)
      let db2 := step2.1
      let tr2 := step2.2
      -- `if (input.images && input.images.length > 0)`
      let imgInputs := (input.images.getD [])
      let doImages :=
        match input.images with
        | some l => decide (l.length > 0)
        | none => false
      let step3 :=
        if doImages then
          let rows := mkImageRows db2.genCounter propId imgInputs
          ({ db2 with propertyImages := db2.propertyImages ++ rows,
                      genCounter := db2.genCounter + imgInputs.length },
           tr2 ++ [Effect.insertImages propId imgInputs.length], rows)
        else (db2, tr2, [])
      let db3 := step3.1
      let tr3 := step3.2.1
      let images := step3.2.2
      let phRow : PricingHistory :=
        { id := "ph-gen-" ++ toString db3.genCounter, propertyId := propId,
          price := input.price, currency := optStrOr input.currency "USD",
          effectiveDate := now }
      let db4 := { db3 with pricingHistory := db3.pricingHistory ++ [phRow],
                            genCounter := db3.genCounter + 1 }
      let tr4 := tr3 ++
        [Effect.insertPricing propId input.price (optStrOr input.currency "USD")]
      (db4, tr4,
       .ok { toProperty := property, images := images, views := [],
             pricingHistory := [phRow] })

/-- The body of deleteProperty's try block: existence check (a NotFound
throw) and the delete statement. -/
def deletePropertyTry (db : DB) (propertyId : String) :
    DB × List Effect × Except Err Unit :=
  let existingProperty :=
    (db.properties.filter (fun p => p.id == propertyId)).take 1
  if existingProperty.length = 0 then
    (db, [],
     .error (.notFound ("Property with ID " ++ propertyId ++ " not found")))
  else
    ({ db with properties := db.properties.filter (fun p => !(p.id == propertyId)) },
     [Effect.deleteRows propertyId], .ok ())

/-- deleteProperty: the try body with its catch block, which rewraps any
error thrown inside (including the NotFound of the existence check) into
the generic "Failed to delete property: ..." error. -/
def deleteProperty (db : DB) (propertyId : String) :
    DB × List Effect × Except Err Unit :=
  let r := deletePropertyTry db propertyId
  match r.2.2 with
  | .ok u => (r.1, r.2.1, .ok u)
  | .error e => (r.1, r.2.1, .error (.deleteFailed e.message))

/-- The partial update payload: `undefined` fields are `none`. -/
structure UpdatePropertyInput where
  title : Option String := none
  description : Option String := none
  facilities : Option String := none
  propertyType : Option String := none
  transactionType : Option String := none
  price : Option Int := none
  currency : Option String := none
  size : Option Int := none
  rooms : Option Int := none
  address : Option String := none
  status : Option String := none
  documentUrl : Option String := none
  verificationComments : Option String := none
  isVerified : Option Bool := none
  images : Option (List ImageInput) := none
deriving Repr, DecidableEq

/-- The shape updateProperty returns: the updated row spread with
images, views, pricing history, the raw owner row (or null) and a
hard-coded isWished = false. -/
structure UpdateResult extends Property where
  images : List PropertyImage
  views : List PropertyView
  pricingHistory : List PricingHistory
  owner : Option User
  isWished : Bool
deriving Repr, DecidableEq

/-- The updateData object applied by the UPDATE statement: each field
present in the input overwrites the stored one (`!== undefined` tests),
and updatedAt is always refreshed. -/
def applyUpdate (p : Property) (input : UpdatePropertyInput) (now : Nat) :
    Property :=
  { p with
    title := input.title.getD p.title
    description := input.description.getD p.description
    facilities := input.facilities.getD p.facilities
    propertyType := input.propertyType.getD p.propertyType
    transactionType := input.transactionType.getD p.transactionType
    price := input.price.getD p.price
    currency := input.currency.getD p.currency
    size := input.size.getD p.size
    rooms := input.rooms.getD p.rooms
    address := input.address.getD p.address
    status := input.status.getD p.status
    documentUrl := input.documentUrl.getD p.documentUrl
    verificationComments :=
      input.verificationComments.getD p.verificationComments
    isVerified := input.isVerified.getD p.isVerified
    updatedAt := now }

/-- Modelled from the spec: the email sender lives in
src/services/email.service.ts, which is not under src/. Spec section 6
defines its contract as `sendPriceChangeNotification(email, {name,
address, oldPrice, newPrice})`, fire-and-forget from this service's
perspective: a delivery failure (the oracle argument) is absorbed by the
sender and never surfaces as a rejected promise, so dispatching can only
record an effect, never fail the caller. -/
def sendPriceChangeNotification (deliveryOk : String → Bool) (email : String)
    (name address : String) (oldPrice newPrice : Int) : Effect :=
  Effect.sendNotification email name address oldPrice newPrice
    (deliveryOk email)

/-- The price-change side effect inside updateProperty's
`input.price !== undefined` branch: when the supplied price differs from
the stored one, notify (in a Promise.all) every wishlisting user that
resolves to a user row and has a truthy email. -/
def notifTraceOf (db : DB) (deliveryOk : String → Bool) (propertyId : String)
    (existing : Property) (inputPrice : Option Int) : List Effect :=
  match inputPrice with
  | none => []
  | some np =>
    if existing.price ≠ np then
      let userIds := (db.wishlist.filter
        (fun w => w.propertyId == propertyId)).map (fun w => w.userId)
      let allUsers := db.users.filter (fun u => userIds.contains u.id)
      if allUsers.length > 0 then
        allUsers.filterMap (fun u =>
          if u.email ≠ "" then
            some (sendPriceChangeNotification deliveryOk u.email existing.title
              (strOr existing.address "N/A") existing.price np)
          else none)
      else []
    else []

/-- The image block of updateProperty, kept with its redundant
diff-then-replace structure: a conditional delete+insert of the diffed
subset followed by an unconditional delete and a full insert of the
supplied list (when nonempty). Returns the store, the trace so far and
the in-memory `images` variable. -/
def updateImagesStep (db : DB) (tr : List Effect) (propertyId : String)
    (inputImages : Option (List ImageInput)) :
    DB × List Effect × List PropertyImage :=
  match inputImages with
  | none => (db, tr, [])
  | some imgList =>
    let existingImages :=
      db.propertyImages.filter (fun i => i.propertyId == propertyId)
    let newImages := imgList.filter (fun img =>
      !(existingImages.any (fun ei =>
        ei.imageUrl == img.imageUrl && ei.isPrimary == img.isPrimary)))
    let stepA :=
      if newImages.length > 0 then
        let dbDel := { db with propertyImages :=
          db.propertyImages.filter (fun i => !(i.propertyId == propertyId)) }
        let rows := mkImageRows dbDel.genCounter propertyId newImages
        ({ dbDel with propertyImages := dbDel.propertyImages ++ rows,
                      genCounter := dbDel.genCounter + newImages.length },
         tr ++ [Effect.deleteImages propertyId,
                Effect.insertImages propertyId newImages.length], rows)
      else (db, tr, existingImages)
    let dbA := stepA.1
    let trA := stepA.2.1
    let imagesA := stepA.2.2
    -- the unconditional second delete
    let dbB := { dbA with propertyImages :=
      dbA.propertyImages.filter (fun i => !(i.propertyId == propertyId)) }
    let trB := trA ++ [Effect.deleteImages propertyId]
    if imgList.length > 0 then
      let rows := mkImageRows dbB.genCounter propertyId imgList
      ({ dbB with propertyImages := dbB.propertyImages ++ rows,
                  genCounter := dbB.genCounter + imgList.length },
       trB ++ [Effect.insertImages propertyId imgList.length], rows)
    else (dbB, trB, imagesA)

/-- The pricing-history block of updateProperty: append one row whenever
price or currency is supplied, with TS `||` fallbacks to the stored
values ("USD" when even the stored currency is falsy). -/
def updatePricingStep (db : DB) (now : Nat) (propertyId : String)
    (existing : Property) (inputPrice : Option Int)
    (inputCurrency : Option String) :
    DB × List PricingHistory :=
  if inputPrice.isSome || inputCurrency.isSome then
    let newPrice := optIntOr inputPrice existing.price
    let newCurrency := optStrOr inputCurrency (strOr existing.currency "USD")
    let row : PricingHistory :=
      { id := "ph-gen-" ++ toString db.genCounter, propertyId := propertyId,
        price := newPrice, currency := newCurrency, effectiveDate := now }
    ({ db with pricingHistory := db.pricingHistory ++ [row],
               genCounter := db.genCounter + 1 }, [row])
  else (db, [])

/-- updateProperty: existence check (NotFound), price-change
notification fan-out, the UPDATE statement, the image block, the
pricing-history block, and the final parallel fetch of the returned
aggregate (isWished hard-coded to false). -/
def updateProperty (db : DB) (now : Nat) (deliveryOk : String → Bool)
    (propertyId : String) (input : UpdatePropertyInput) :
    DB × List Effect × Except Err UpdateResult :=
  match (db.properties.filter (fun p => p.id == propertyId)).head? with
  | none =>
    (db, [],
     .error (.notFound ("Property with ID " ++ propertyId ++ " not found")))
  | some existing =>
    let notifTrace := notifTraceOf db deliveryOk propertyId existing input.price
    let newProps := db.properties.map (fun q =>
      if q.id == propertyId then applyUpdate q input now else q)
    let db1 := { db with properties := newProps }
    let tr1 := notifTrace ++ [Effect.updateRow propertyId]
    let updatedProperty := newProps.filter (fun p => p.id == propertyId)
    let step2 := updateImagesStep db1 tr1 propertyId input.images
    let db2 := step2.1
    let tr2 := step2.2.1
    let images := step2.2.2
    let step3 := updatePricingStep db2 now propertyId existing input.price
      input.currency
    let db3 := step3.1
    let pricingHistoryRecord := step3.2
    let tr3 := tr2 ++ (pricingHistoryRecord.map (fun row =>
      Effect.insertPricing propertyId row.price row.currency))
    let fetchedImages :=
      match input.images with
      | some _ => images
      | none => db3.propertyImages.filter (fun i => i.propertyId == propertyId)
    let views := db3.propertyViews.filter (fun v => v.propertyId == propertyId)
    let pricing :=
      db3.pricingHistory.filter (fun ph => ph.propertyId == propertyId)
    let owner := db3.users.find? (fun u => u.id == existing.ownerId)
    -- `updatedProperty[0]`: nonempty here because the same id predicate
    -- matched in the existence check; the fallback branch is unreachable
    let updated := updatedProperty.head?.getD (applyUpdate existing input now)
    let resultPricing :=
      if pricingHistoryRecord.length > 0 then pricing
      else db3.pricingHistory.filter (fun ph => ph.propertyId == propertyId)
    (db3, tr3,
     .ok { toProperty := updated, images := fetchedImages, views := views,
           pricingHistory := resultPricing, owner := owner, isWished := false })

/-- One pricing-history line of the verification summary. -/
def phLine (ph : PricingHistory) : String :=
  toString ph.price ++ " " ++ ph.currency ++ " on " ++ toString ph.effectiveDate

/-- The human-readable property summary built by verifyProperty
(TS truthiness: falsy fields print as "Unknown"). -/
def buildSummary (p : Property) (images : List PropertyImage)
    (phs : List PricingHistory) : String :=
  "- ID: " ++ p.id ++
  "\n- Title: " ++ strOr p.title "Unknown" ++
  "\n- Type: " ++ strOr p.propertyType "Unknown" ++
  "\n- Description: " ++ strOr p.description "Unknown" ++
  "\n- Transaction: " ++ strOr p.transactionType "Unknown" ++
  "\n- Price: " ++
    (if p.price ≠ 0 then toString p.price ++ " " ++ p.currency
     else "Unknown") ++
  "\n- Size: " ++ (if p.size ≠ 0 then toString p.size ++ " sqm" else "Unknown") ++
  "\n- Rooms: " ++ (if p.rooms ≠ 0 then toString p.rooms else "Unknown") ++
  "\n- Address: " ++ strOr p.address "Unknown" ++
  "\n- Status: " ++ strOr p.status "Unknown" ++
  "\n- Is Verified: " ++ (if p.isVerified then "Yes" else "No") ++
  "\n- Images: " ++ toString images.length ++ " images" ++
  "\n- Facilities: " ++ strOr p.facilities "Unknown" ++
  "\n- Pricing History: " ++
    (if phs.length ≠ 0 then String.intercalate ", " (phs.map phLine)
     else "None")

/-- If an in-memory chat session is registered for the conversation,
rebuild it from the full persisted message history ordered by creation
time ("model" for sender "ai", else "user") and replace the registry
entry. -/
def rebuildSession (db : DB) (conversationId : String) :
    DB × List Effect :=
  match db.activeChatSessions.find? (fun s => s.1 == conversationId) with
  | none => (db, [])
  | some _ =>
    let messageHistory :=
      (db.messages.filter (fun m => m.conversationId == conversationId)).mergeSort
        (fun a b => a.createdAt ≤ b.createdAt)
    let history : ChatSession := messageHistory.map (fun m =>
      { role := if m.sender == "ai" then "model" else "user",
        text := m.content })
    ({ db with activeChatSessions := db.activeChatSessions.map (fun s =>
        if s.1 == conversationId then (s.1, history) else s) },
     [Effect.setSession conversationId])

/-- The per-conversation body of verifyProperty's loop: skip without a
systemPromptId; grow an existing hidden system message, or synthesize a
new one from the default prompt (skipping when the prompt is missing);
in either mutating branch rebuild any live chat session. -/
def processConversation (now : Nat) (summary : String) (db : DB)
    (conv : Conversation) : DB × List Effect :=
  match conv.systemPromptId with
  | none => (db, [])
  | some spId =>
    let systemMessage := (db.messages.filter (fun m =>
      m.conversationId == conv.id && m.sender == "system"
        && m.isVisible == false)).head?
    match systemMessage with
    | some sm =>
      let updatedContent :=
        sm.content ++ "\n\n### New Property Added:\n" ++ summary
      let db1 := { db with messages := db.messages.map (fun m =>
        if m.id == sm.id then { m with content := updatedContent } else m) }
      let rb := rebuildSession db1 conv.id
      (rb.1, [Effect.updateMessage sm.id] ++ rb.2)
    | none =>
      match db.systemPrompts.find? (fun sp => sp.id == spId) with
      | some defaultPrompt =>
        let newContent := defaultPrompt.content
          ++ "\n### Available Properties:\n" ++ summary
        let newMsg : Message :=
          { id := "msg-gen-" ++ toString db.genCounter,
            conversationId := conv.id, sender := "system",
            content := newContent, createdAt := now, isVisible := false }
        let db1 := { db with messages := db.messages ++ [newMsg],
                             genCounter := db.genCounter + 1 }
        let rb := rebuildSession db1 conv.id
        (rb.1, [Effect.insertMessage conv.id] ++ rb.2)
      | none => (db, [])

/-- verifyProperty: the UPDATE..RETURNING that sets isVerified, then
(dereferencing the absent updated row throws a TypeError when the id
does not exist, after the pricing/image reads but before any
conversation work), the summary build and the AI-context sync loop over
all active conversations. -/
def verifyProperty (db : DB) (now : Nat) (id : String) :
    DB × List Effect × Except Err Property :=
  let updatedProps := db.properties.map (fun p =>
    if p.id == id then { p with isVerified := true } else p)
  let db0 := { db with properties := updatedProps }
  let result := updatedProps.filter (fun p => p.id == id)
  match result.head? with
  | none =>
    -- pricing history and images are still read (pure reads), then the
    -- summary template dereferences `result[0].id` and throws
    (db0, [Effect.updateRow id], .error .typeError)
  | some property =>
    let phs := db0.pricingHistory.filter (fun ph => ph.propertyId == id)
    let images := db0.propertyImages.filter (fun i => i.propertyId == id)
    let summary := buildSummary property images phs
    let activeConversations := db0.conversations.filter (fun c => c.isActive)
    let final := activeConversations.foldl (fun st conv =>
        let step := processConversation now summary st.1 conv
        (step.1, st.2 ++ step.2))
      (db0, ([] : List Effect))
    (final.1, [Effect.updateRow id, Effect.readConversations] ++ final.2,
     .ok property)

/-! ### Sample rows and stores used by witnesses and counterexamples -/

def sampleOwner : User :=
  { id := "u1", email := "alice@mail.test", username := "alice",
    role := "private_seller", listingLimit := some 3, isEmailVerified := true,
    paypalCredentials := "pp-secret", createdAt := 0, updatedAt := 0 }

def sampleOwnerAtQuota : User := { sampleOwner with listingLimit := some 0 }

def sampleWisher : User :=
  { id := "u2", email := "", username := "bob", role := "renter",
    listingLimit := none, isEmailVerified := false, paypalCredentials := "",
    createdAt := 0, updatedAt := 0 }

def sampleProperty : Property :=
  { id := "p1", ownerId := "u1", title := "Nice flat", description := "desc",
    facilities := "wifi", propertyType := "apartment",
    transactionType := "sale", price := 100, currency := "USD", size := 50,
    rooms := 2, address := "1 Main St", status := "active",
    documentUrl := "", verificationComments := "", isVerified := true,
    createdAt := 0, updatedAt := 0 }

def sampleHidden : Property :=
  { sampleProperty with id := "p2", status := "inactive", isVerified := false }

def sampleImage : PropertyImage :=
  { id := "i1", propertyId := "p1", imageUrl := "url1", isPrimary := true }

def sampleImage2 : PropertyImage :=
  { id := "i2", propertyId := "p1", imageUrl := "url2", isPrimary := false }

def sampleView : PropertyView := { id := "v1", propertyId := "p1", viewedAt := 3 }

def sampleWish1 : WishlistEntry := { userId := "u1", propertyId := "p1" }

def sampleWish2 : WishlistEntry := { userId := "u2", propertyId := "p1" }

def samplePricing1 : PricingHistory :=
  { id := "h1", propertyId := "p1", price := 90, currency := "USD",
    effectiveDate := 1 }

def samplePricing2 : PricingHistory :=
  { id := "h2", propertyId := "p1", price := 100, currency := "USD",
    effectiveDate := 2 }

def emptyDB : DB := {}

/-- A store with one inactive, unverified property. -/
def dbHiddenOnly : DB := { properties := [sampleHidden] }

/-- A store with a full aggregate: one property, owner, two images, one
view, two price-history rows, two wishlisting users (one without an
email). -/
def dbFull : DB :=
  { properties := [sampleProperty], users := [sampleOwner, sampleWisher],
    propertyImages := [sampleImage, sampleImage2],
    propertyViews := [sampleView],
    pricingHistory := [samplePricing1, samplePricing2],
    wishlist := [sampleWish1, sampleWish2] }

def sampleCreateInput : CreatePropertyInput :=
  { ownerId := "u1", title := "T", description := "D", facilities := "F",
    propertyType := "house", transactionType := "sale", price := 77,
    size := 10, rooms := 1, address := "2 Side St", documentUrl := "",
    verificationComments := "" }

/-! ### List helper lemmas -/

theorem map_ite_id {α : Type} (l : List α) (p : α → Bool) (f : α → α)
    (h : ∀ a ∈ l, p a = false) :
    (l.map fun a => if p a then f a else a) = l := by
  induction l with
  | nil => rfl
  | cons a t ih =>
    have ha := h a (List.mem_cons_self a t)
    simp [ha, ih (fun x hx => h x (List.mem_cons_of_mem a hx))]

theorem find?_head_of_filter {α : Type} (l : List α) (p : α → Bool) (x : α)
    (h : l.find? p = some x) : ∃ t, l.filter p = x :: t := by
  induction l with
  | nil => simp at h
  | cons a t ih =>
    by_cases hpa : p a
    · rw [List.find?_cons_of_pos _ hpa] at h
      injection h with h
      exact ⟨t.filter p, by rw [List.filter_cons_of_pos hpa, h]⟩
    · rw [List.find?_cons_of_neg _ hpa] at h
      obtain ⟨t', ht'⟩ := ih h
      exact ⟨t', by rw [List.filter_cons_of_neg hpa, ht']⟩

theorem find?_map_update {α : Type} (key : α → String) (k : String)
    (upd : α → α) (hid : ∀ a, key (upd a) = key a) (l : List α) :
    (l.map (fun a => if key a == k then upd a else a)).find?
        (fun a => key a == k)
      = (l.find? (fun a => key a == k)).map
          (fun a => if key a == k then upd a else a) := by
  induction l with
  | nil => rfl
  | cons a t ih =>
    by_cases hpa : (key a == k) = true
    · have hupd : (key (upd a) == k) = true := by rw [hid a]; exact hpa
      simp [List.find?, hpa, hupd, eq_of_beq hpa]
    · have hupd : (key a == k) = false := by simpa using hpa
      simp only [List.map_cons, hupd, Bool.false_eq_true, if_false,
        List.find?]
      exact ih

/-! ### C3: deleting a nonexistent id -/

/-- C3 counterexample: the claim says deleteProperty on a missing id
fails with NotFound; in the code the NotFound throw sits inside the try
block, so the catch rewraps it and the caller observes a DeleteFailed
error instead. -/
theorem c3_counterexample :
    (deleteProperty emptyDB "p1").2.2 =
        .error (.deleteFailed "Property with ID p1 not found") ∧
      resultIsNotFound (deleteProperty emptyDB "p1").2.2 = false ∧
      (deleteProperty emptyDB "p1").2.1 = [] := by
  refine ⟨rfl, rfl, rfl⟩

/-- C3 (amended): for every id with no matching property row,
deleteProperty fails with the DeleteFailed wrapper carrying the
not-found message (the existence-check throw is caught and rewrapped),
leaves the store unchanged, and issues no delete statement. -/
theorem c3_delete_missing_wraps (db : DB) (pid : String)
    (h : ∀ p ∈ db.properties, p.id ≠ pid) :
    deleteProperty db pid =
      (db, [],
       .error (.deleteFailed ("Property with ID " ++ pid ++ " not found"))) := by
  have hfil : db.properties.filter (fun p => p.id == pid) = [] := by
    simp only [List.filter_eq_nil_iff]
    intro a ha
    simpa using h a ha
  simp [deleteProperty, deletePropertyTry, hfil, Err.message]

/-- C3 witness. -/
theorem c3_delete_missing_wraps_witness :
    deleteProperty dbHiddenOnly "p1" =
      (dbHiddenOnly, [],
       .error (.deleteFailed ("Property with ID " ++ "p1" ++ " not found"))) :=
  c3_delete_missing_wraps dbHiddenOnly "p1" (by decide)

/-! ### C9: verifying a nonexistent id -/

/-- C9: for an id with no matching property, verifyProperty issues only
the (vacuous) UPDATE statement, mutates nothing — in particular no
conversation is read, no message inserted or updated, no chat-session
registry entry touched — and throws the TypeError of dereferencing the
absent updated row, which is not a NotFound error; it never returns a
value. -/
theorem c9_verify_missing (db : DB) (now : Nat) (id : String)
    (h : ∀ p ∈ db.properties, p.id ≠ id) :
    verifyProperty db now id = (db, [Effect.updateRow id], .error .typeError) ∧
      resultIsNotFound (verifyProperty db now id).2.2 = false := by
  have hmap : (db.properties.map fun p =>
      if p.id == id then { p with isVerified := true } else p) = db.properties :=
    map_ite_id _ _ _ (fun a ha => by simpa using h a ha)
  have hfil : db.properties.filter (fun p => p.id == id) = [] := by
    simp only [List.filter_eq_nil_iff]
    intro a ha
    simpa using h a ha
  have hmain : verifyProperty db now id =
      (db, [Effect.updateRow id], .error .typeError) := by
    simp only [verifyProperty, hmap, hfil, List.head?_nil]
  refine ⟨hmain, ?_⟩
  rw [hmain]
  rfl

/-- C9 witness. -/
theorem c9_verify_missing_witness :
    verifyProperty dbFull 5 "zz" =
        (dbFull, [Effect.updateRow "zz"], .error .typeError) ∧
      resultIsNotFound (verifyProperty dbFull 5 "zz").2.2 = false :=
  c9_verify_missing dbFull 5 "zz" (by decide)

/-! ### C6: listing quota and listingLimit decrement -/

/-- C6: for an owner with role "private_seller": (a) a non-null
listingLimit ≤ 0 makes addNewProperty fail with QuotaExceeded, leaving
the store untouched and issuing no write effect at all; (b) with
listingLimit = 3 the call succeeds and the stored owner row ends with
listingLimit = 2. -/
theorem c6_quota_and_decrement (db : DB) (now : Nat)
    (input : CreatePropertyInput) (u : User)
    (hu : db.users.find? (fun x => x.id == input.ownerId) = some u)
    (hrole : u.role = "private_seller") :
    (∀ l : Int, u.listingLimit = some l → l ≤ 0 →
        addNewProperty db now input = (db, [], .error .quotaExceeded)) ∧
      (u.listingLimit = some 3 →
        (addNewProperty db now input).2.2.isOk = true ∧
          ((addNewProperty db now input).1.users.find?
              (fun x => x.id == input.ownerId)).map (fun x => x.listingLimit)
            = some (some 2)) := by
  have huid : (u.id == input.ownerId) = true := by
    have h2 := List.find?_some hu
    exact h2
  constructor
  · intro l hl hle
    have hd : (decide (l ≤ 0)) = true := decide_eq_true hle
    simp [addNewProperty, hu, hrole, hl, hd]
  · intro h3
    have e1 : (decide ((3:Int) ≤ 0)) = false := by decide
    have e2 : (decide ((3:Int) ≠ 0)) = true := by decide
    have e4 : ((if (3:Int) = 0 then (1:Int) else 3) - 1) = 2 := by decide
    constructor
    · simp only [addNewProperty, hu, hrole, h3, e1, e2, e4, beq_self_eq_true,
        Bool.true_and, Bool.false_eq_true, if_false, if_true]
      split
      · rfl
      · rfl
    · simp only [addNewProperty, hu, hrole, h3, e1, e2, e4, beq_self_eq_true,
        Bool.true_and, Bool.false_eq_true, if_false, if_true]
      split
      all_goals
        dsimp only
        rw [find?_map_update (fun x : User => x.id) input.ownerId
          (fun x : User => { x with listingLimit := some 2 }) (fun a => rfl)
          db.users]
        rw [hu]
        simp [huid, eq_of_beq huid]

def dbQuota : DB := { users := [sampleOwnerAtQuota] }

def dbSeller : DB := { users := [sampleOwner] }

/-- C6 witness: one owner at the quota (listingLimit = 0) and one with
listingLimit = 3. -/
theorem c6_quota_and_decrement_witness :
    (addNewProperty dbQuota 9 sampleCreateInput =
        (dbQuota, [], .error .quotaExceeded)) ∧
      ((addNewProperty dbSeller 9 sampleCreateInput).2.2.isOk = true ∧
        ((addNewProperty dbSeller 9 sampleCreateInput).1.users.find?
            (fun x => x.id == sampleCreateInput.ownerId)).map
          (fun x => x.listingLimit) = some (some 2)) :=
  ⟨(c6_quota_and_decrement dbQuota 9 sampleCreateInput sampleOwnerAtQuota
      (by decide) (by decide)).1 0 (by decide) (by decide),
   (c6_quota_and_decrement dbSeller 9 sampleCreateInput sampleOwner
      (by decide) (by decide)).2 (by decide)⟩

/-! ### C1: filter fallthrough vs. the "active" default parameter -/

/-- C1 counterexample: the claim includes the absent-filter case in the
no-filter fallthrough, but the parameter default is "active": with no
filter supplied, an existing inactive unverified property is filtered
out instead of being returned. -/
theorem c1_counterexample :
    dbHiddenOnly.properties.length = 1 ∧
      getProperties dbHiddenOnly none none = [] := by
  exact ⟨rfl, by decide⟩

/-- C1 (amended): for every SUPPLIED filter value outside {"active",
"sold_rented", "inactive"}, getProperties applies no status or
verification filter and returns an aggregate for every stored property
(in store order); an ABSENT filter however falls back to the "active"
default parameter and behaves exactly like filter "active". -/
theorem c1_fallthrough_and_default (db : DB) (uid : Option String)
    (s : String) (h1 : s ≠ "active") (h2 : s ≠ "sold_rented")
    (h3 : s ≠ "inactive") :
    (getProperties db (some s) uid).map (fun r => r.toProperty)
        = db.properties ∧
      getProperties db none uid = getProperties db (some "active") uid := by
  refine ⟨?_, rfl⟩
  have hfp : filteredProperties db s = db.properties := by
    simp [filteredProperties, h1, h2, h3]
  simp only [getProperties, Option.getD_some, hfp]
  by_cases hnil : db.properties = []
  · simp [hnil]
  · rw [if_neg (by simp [hnil])]
    simp only [List.map_map, List.zip_map']
    simp only [Function.comp_def]
    simp

/-- C1 witness. -/
theorem c1_fallthrough_and_default_witness :
    (getProperties dbHiddenOnly (some "all") none).map (fun r => r.toProperty)
        = dbHiddenOnly.properties ∧
      getProperties dbHiddenOnly none none =
        getProperties dbHiddenOnly (some "active") none :=
  c1_fallthrough_and_default dbHiddenOnly none "all" (by decide) (by decide)
    (by decide)

/-! ### C5: pricing-history append on update -/

/-- The image block touches only the image table and the id counter. -/
theorem updateImagesStep_fields (db : DB) (tr : List Effect) (pid : String)
    (imgs : Option (List ImageInput)) :
    (updateImagesStep db tr pid imgs).1.pricingHistory = db.pricingHistory ∧
      (updateImagesStep db tr pid imgs).1.users = db.users ∧
      (updateImagesStep db tr pid imgs).1.propertyViews = db.propertyViews ∧
      (updateImagesStep db tr pid imgs).1.properties = db.properties := by
  cases imgs with
  | none => exact ⟨rfl, rfl, rfl, rfl⟩
  | some l =>
    simp only [updateImagesStep]
    split <;> split <;> exact ⟨rfl, rfl, rfl, rfl⟩

/-- C5 counterexample: supplying price = 0 (a JS-falsy number) for a
property whose stored price is 100 appends a pricing-history row
carrying 100 — the prior stored value — not the supplied 0, even though
the property row itself is updated to price 0. -/
theorem c5_counterexample :
    ((updateProperty dbFull 7 (fun _ => true) "p1"
          { price := some (0 : Int) }).1.pricingHistory.map
        (fun ph => ph.price) = [90, 100, 100]) ∧
      (match (updateProperty dbFull 7 (fun _ => true) "p1"
          { price := some (0 : Int) }).2.2 with
        | .ok r => r.price
        | .error _ => 999) = 0 := by
  exact ⟨by decide, by decide⟩

/-- C5 (amended): whenever price or currency is supplied (also when only
currency is), exactly one pricing-history row is appended; its price and
currency follow TS `||` fallback semantics — the supplied value when it
is truthy (price ≠ 0, currency ≠ ""), otherwise the prior stored value
(with "USD" when even the stored currency is empty) — rather than
plain supplied-else-stored; when neither is supplied, the table is
unchanged. -/
theorem c5_pricing_append (db : DB) (now : Nat) (dok : String → Bool)
    (pid : String) (input : UpdatePropertyInput) (p : Property)
    (hp : (db.properties.filter (fun q => q.id == pid)).head? = some p) :
    (input.price = none ∧ input.currency = none →
        (updateProperty db now dok pid input).1.pricingHistory
          = db.pricingHistory) ∧
      (input.price ≠ none ∨ input.currency ≠ none →
        ∃ rid, (updateProperty db now dok pid input).1.pricingHistory
          = db.pricingHistory ++
            [{ id := rid, propertyId := pid,
               price := optIntOr input.price p.price,
               currency := optStrOr input.currency (strOr p.currency "USD"),
               effectiveDate := now }]) := by
  constructor
  · rintro ⟨hpn, hcn⟩
    simp only [updateProperty, hp, updatePricingStep, hpn, hcn,
      Option.isSome_none, Bool.or_self, Bool.false_eq_true, if_false]
    exact (updateImagesStep_fields _ _ _ _).1
  · intro hor
    have hcond : (input.price.isSome || input.currency.isSome) = true := by
      rcases hor with h | h
      · simp [Option.isSome_iff_ne_none, h]
      · simp [Option.isSome_iff_ne_none, h]
    simp only [updateProperty, hp, updatePricingStep, hcond, if_true]
    exact ⟨_, by rw [(updateImagesStep_fields _ _ _ _).1]⟩

/-- C5 witness: updating only the currency (EUR, price untouched) still
appends exactly one pricing-history row. -/
theorem c5_pricing_append_witness :
    ∃ rid, (updateProperty dbFull 7 (fun _ => true) "p1"
        { currency := some "EUR" }).1.pricingHistory
      = dbFull.pricingHistory ++
        [{ id := rid, propertyId := "p1",
           price := optIntOr none sampleProperty.price,
           currency := optStrOr (some "EUR")
             (strOr sampleProperty.currency "USD"),
           effectiveDate := 7 }] :=
  (c5_pricing_append dbFull 7 (fun _ => true) "p1" { currency := some "EUR" }
      sampleProperty (by decide)).2 (Or.inr (by decide))

/-! ### C7: full image replacement on update -/

theorem mkImageRows_map_content (pid : String) :
    ∀ (c : Nat) (l : List ImageInput),
      (mkImageRows c pid l).map (fun i => (i.imageUrl, i.isPrimary))
        = l.map (fun i => (i.imageUrl, i.isPrimary))
  | _, [] => rfl
  | c, img :: rest => by
    simp [mkImageRows, mkImageRows_map_content pid (c + 1) rest]

theorem mkImageRows_filter_pid (pid : String) :
    ∀ (c : Nat) (l : List ImageInput),
      (mkImageRows c pid l).filter (fun i => i.propertyId == pid)
        = mkImageRows c pid l
  | _, [] => rfl
  | c, img :: rest => by
    simp [mkImageRows, mkImageRows_filter_pid pid (c + 1) rest]

theorem filter_not_filter {α : Type} (p : α → Bool) (l : List α) :
    (l.filter (fun x => !(p x))).filter p = [] := by
  induction l with
  | nil => rfl
  | cons a t ih =>
    by_cases h : p a
    · simp [List.filter_cons, h, ih]
    · simp [List.filter_cons, h, ih]

/-- The pricing block touches only the pricing table and the counter. -/
theorem updatePricingStep_fields (db : DB) (now : Nat) (pid : String)
    (p : Property) (ip : Option Int) (ic : Option String) :
    (updatePricingStep db now pid p ip ic).1.propertyImages
        = db.propertyImages ∧
      (updatePricingStep db now pid p ip ic).1.propertyViews
        = db.propertyViews ∧
      (updatePricingStep db now pid p ip ic).1.users = db.users := by
  unfold updatePricingStep
  split
  · exact ⟨rfl, rfl, rfl⟩
  · exact ⟨rfl, rfl, rfl⟩

/-- After the image block, the stored image rows for the property are
exactly the supplied list (by externally observable content). -/
theorem updateImagesStep_replaces (db : DB) (tr : List Effect) (pid : String)
    (l : List ImageInput) :
    ((updateImagesStep db tr pid (some l)).1.propertyImages.filter
        (fun i => i.propertyId == pid)).map (fun i => (i.imageUrl, i.isPrimary))
      = l.map (fun i => (i.imageUrl, i.isPrimary)) := by
  simp only [updateImagesStep]
  by_cases hl : l.length > 0
  · rw [if_pos hl]
    dsimp only
    rw [List.filter_append, filter_not_filter, mkImageRows_filter_pid]
    simp [mkImageRows_map_content]
  · rw [if_neg hl]
    dsimp only
    rw [filter_not_filter]
    have hnil : l = [] := by
      cases l with
      | nil => rfl
      | cons a t => simp at hl
    simp [hnil]

/-- C7: whenever an images list is supplied, the stored image set for
the property after updateProperty is exactly the supplied set (full
replace, not merge), regardless of the internal diff-then-replace. -/
theorem c7_image_full_replace (db : DB) (now : Nat) (dok : String → Bool)
    (pid : String) (input : UpdatePropertyInput) (p : Property)
    (l : List ImageInput)
    (hp : (db.properties.filter (fun q => q.id == pid)).head? = some p)
    (himg : input.images = some l) :
    ((updateProperty db now dok pid input).1.propertyImages.filter
        (fun i => i.propertyId == pid)).map (fun i => (i.imageUrl, i.isPrimary))
      = l.map (fun i => (i.imageUrl, i.isPrimary)) := by
  simp only [updateProperty, hp, himg]
  rw [(updatePricingStep_fields _ _ _ _ _ _).1]
  exact updateImagesStep_replaces _ _ _ _

def imgInputA : ImageInput := { imageUrl := "u3", isPrimary := false }

def imgInputB : ImageInput := { imageUrl := "u1", isPrimary := true }

def imagesReplaceInput : UpdatePropertyInput :=
  { images := some [imgInputA, imgInputB] }

/-- C7 witness: replacing the two stored images of p1 with a different
two-element list. -/
theorem c7_image_full_replace_witness :
    ((updateProperty dbFull 7 (fun _ => true) "p1"
        imagesReplaceInput).1.propertyImages.filter
          (fun i => i.propertyId == "p1")).map
        (fun i => (i.imageUrl, i.isPrimary))
      = [("u3", false), ("u1", true)] :=
  c7_image_full_replace dbFull 7 (fun _ => true) "p1" imagesReplaceInput
    sampleProperty _ (by decide) rfl

/-! ### C4: the aggregate returned by updateProperty -/

/-- C4 counterexample: supplying an EMPTY images list returns the
pre-existing image rows in the aggregate while the store has been
emptied — the returned images do not reflect the stored state. -/
theorem c4_counterexample :
    ((match (updateProperty dbFull 7 (fun _ => true) "p1"
          { images := some ([] : List ImageInput) }).2.2 with
        | .ok r => r.images
        | .error _ => []) = [sampleImage, sampleImage2]) ∧
      ((updateProperty dbFull 7 (fun _ => true) "p1"
          { images := some ([] : List ImageInput) }).1.propertyImages.filter
        (fun i => i.propertyId == "p1") = []) := by
  exact ⟨by decide, by decide⟩

/-- With a nonempty supplied list, the in-memory `images` variable the
return value uses coincides with the stored rows for the property. -/
theorem updateImagesStep_images_eq_store (db : DB) (tr : List Effect)
    (pid : String) (l : List ImageInput) (hl : l ≠ []) :
    (updateImagesStep db tr pid (some l)).2.2
      = (updateImagesStep db tr pid (some l)).1.propertyImages.filter
          (fun i => i.propertyId == pid) := by
  have hlen : l.length > 0 := by
    cases l with
    | nil => exact absurd rfl hl
    | cons a t => simp
  simp only [updateImagesStep]
  rw [if_pos hlen]
  dsimp only
  rw [List.filter_append, filter_not_filter, mkImageRows_filter_pid]
  simp

/-- With an empty supplied list, the in-memory `images` variable holds
the old rows while the store keeps none for the property. -/
theorem updateImagesStep_empty (db : DB) (tr : List Effect) (pid : String) :
    (updateImagesStep db tr pid (some [])).2.2
        = db.propertyImages.filter (fun i => i.propertyId == pid) ∧
      (updateImagesStep db tr pid (some [])).1.propertyImages.filter
        (fun i => i.propertyId == pid) = [] := by
  simp only [updateImagesStep]
  constructor
  · simp
  · simp [filter_not_filter]

/-- C4 (amended): a successful updateProperty returns an aggregate whose
views, pricing history and owner row reflect the stored state after the
update, with isWished hard-coded false; the returned images also reflect
the stored state when no list or a nonempty list was supplied — but when
an EMPTY list is supplied, the aggregate carries the pre-update image
rows although the store retains none. -/
theorem c4_update_return (db : DB) (now : Nat) (dok : String → Bool)
    (pid : String) (input : UpdatePropertyInput) (p : Property)
    (hp : (db.properties.filter (fun q => q.id == pid)).head? = some p) :
    ∃ r, (updateProperty db now dok pid input).2.2 = .ok r ∧
      r.isWished = false ∧
      r.views = (updateProperty db now dok pid input).1.propertyViews.filter
        (fun v => v.propertyId == pid) ∧
      r.pricingHistory =
        (updateProperty db now dok pid input).1.pricingHistory.filter
          (fun ph => ph.propertyId == pid) ∧
      r.owner = (updateProperty db now dok pid input).1.users.find?
        (fun u => u.id == p.ownerId) ∧
      (input.images = none →
        r.images = (updateProperty db now dok pid input).1.propertyImages.filter
          (fun i => i.propertyId == pid)) ∧
      (∀ l, input.images = some l → l ≠ [] →
        r.images = (updateProperty db now dok pid input).1.propertyImages.filter
          (fun i => i.propertyId == pid)) ∧
      (input.images = some [] →
        r.images = db.propertyImages.filter (fun i => i.propertyId == pid) ∧
          (updateProperty db now dok pid input).1.propertyImages.filter
            (fun i => i.propertyId == pid) = []) := by
  simp only [updateProperty, hp]
  refine ⟨_, rfl, rfl, rfl, ?_, rfl, ?_, ?_, ?_⟩
  · rw [ite_self]
  · intro hnone
    simp only [hnone]
  · intro l hl hlne
    simp only [hl]
    rw [(updatePricingStep_fields _ _ _ _ _ _).1]
    exact updateImagesStep_images_eq_store _ _ _ _ hlne
  · intro hemp
    simp only [hemp]
    rw [(updatePricingStep_fields _ _ _ _ _ _).1]
    constructor
    · exact (updateImagesStep_empty _ _ _).1
    · exact (updateImagesStep_empty _ _ _).2

def c4Input : UpdatePropertyInput := { title := some "New title" }

/-- C4 witness: a plain title update on the fully populated store. -/
theorem c4_update_return_witness :
    ∃ r, (updateProperty dbFull 7 (fun _ => true) "p1" c4Input).2.2 = .ok r ∧
      r.isWished = false ∧
      r.views = (updateProperty dbFull 7 (fun _ => true) "p1"
        c4Input).1.propertyViews.filter (fun v => v.propertyId == "p1") ∧
      r.pricingHistory = (updateProperty dbFull 7 (fun _ => true) "p1"
        c4Input).1.pricingHistory.filter (fun ph => ph.propertyId == "p1") ∧
      r.owner = (updateProperty dbFull 7 (fun _ => true) "p1"
        c4Input).1.users.find? (fun u => u.id == sampleProperty.ownerId) ∧
      (c4Input.images = none →
        r.images = (updateProperty dbFull 7 (fun _ => true) "p1"
          c4Input).1.propertyImages.filter (fun i => i.propertyId == "p1")) ∧
      (∀ l, c4Input.images = some l → l ≠ [] →
        r.images = (updateProperty dbFull 7 (fun _ => true) "p1"
          c4Input).1.propertyImages.filter (fun i => i.propertyId == "p1")) ∧
      (c4Input.images = some [] →
        r.images = dbFull.propertyImages.filter
          (fun i => i.propertyId == "p1") ∧
          (updateProperty dbFull 7 (fun _ => true) "p1"
            c4Input).1.propertyImages.filter
            (fun i => i.propertyId == "p1") = []) :=
  c4_update_return dbFull 7 (fun _ => true) "p1" c4Input sampleProperty
    (by decide)

/-! ### C2: price-change notification fan-out -/

/-- The image block only appends image effects, never a send. -/
theorem updateImagesStep_trace_filter (db : DB) (tr : List Effect)
    (pid : String) (imgs : Option (List ImageInput)) :
    (updateImagesStep db tr pid imgs).2.1.filter Effect.isSend
      = tr.filter Effect.isSend := by
  cases imgs with
  | none => rfl
  | some l =>
    simp only [updateImagesStep]
    split <;> split <;>
      simp [List.filter_append, Effect.isSend]

theorem filter_isSend_pricingEffects (pid : String)
    (rows : List PricingHistory) :
    ((rows.map (fun row =>
        Effect.insertPricing pid row.price row.currency)).filter
      Effect.isSend) = [] := by
  induction rows with
  | nil => rfl
  | cons r t ih => simp [List.filter_cons, Effect.isSend, ih]

theorem filter_filterMap_sends {α : Type} (f : α → Option Effect)
    (hf : ∀ a x, f a = some x → Effect.isSend x = true) (l : List α) :
    (l.filterMap f).filter Effect.isSend = l.filterMap f := by
  induction l with
  | nil => rfl
  | cons a t ih =>
    cases hfa : f a with
    | none => simp [List.filterMap_cons, hfa, ih]
    | some x =>
      simp [List.filterMap_cons, hfa, List.filter_cons, hf a x hfa, ih]

/-- Every effect the notification fan-out produces is a send. -/
theorem notifTraceOf_filter_self (db : DB) (dok : String → Bool)
    (pid : String) (p : Property) (ip : Option Int) :
    (notifTraceOf db dok pid p ip).filter Effect.isSend
      = notifTraceOf db dok pid p ip := by
  cases ip with
  | none => rfl
  | some np =>
    simp only [notifTraceOf]
    split
    · split
      · apply filter_filterMap_sends
        intro a x h
        by_cases he : a.email ≠ ""
        · rw [if_pos he] at h
          injection h with h
          rw [← h]
          rfl
        · simp [he] at h
      · rfl
    · rfl

/-- The send effects of updateProperty's trace are exactly the
notification fan-out. -/
theorem updateProperty_trace_sends (db : DB) (now : Nat)
    (dok : String → Bool) (pid : String) (input : UpdatePropertyInput)
    (p : Property)
    (hp : (db.properties.filter (fun q => q.id == pid)).head? = some p) :
    (updateProperty db now dok pid input).2.1.filter Effect.isSend
      = notifTraceOf db dok pid p input.price := by
  simp only [updateProperty, hp]
  rw [List.filter_append, updateImagesStep_trace_filter, List.filter_append,
    filter_isSend_pricingEffects, notifTraceOf_filter_self]
  simp [Effect.isSend]

/-- C2: when a differing price is supplied, updateProperty still returns
successfully — even when every delivery fails (the sender is
fire-and-forget, spec-modelled) — and the dispatched notifications are
exactly one per wishlisting user that resolves to a user row with a
nonempty email, each carrying the old price, new price, title and
address of the property. The Promise.all fan-out is modelled as the
dispatch list in program order. -/
theorem c2_price_change_notifications (db : DB) (now : Nat)
    (dok : String → Bool) (pid : String) (input : UpdatePropertyInput)
    (p : Property) (np : Int)
    (hp : (db.properties.filter (fun q => q.id == pid)).head? = some p)
    (hprice : input.price = some np) (hne : p.price ≠ np) :
    (updateProperty db now dok pid input).2.2.isOk = true ∧
      (updateProperty db now dok pid input).2.1.filter Effect.isSend
        = (db.users.filter (fun u =>
            ((db.wishlist.filter (fun w => w.propertyId == pid)).map
              (fun w => w.userId)).contains u.id)).filterMap (fun u =>
            if u.email ≠ "" then
              some (Effect.sendNotification u.email p.title
                (strOr p.address "N/A") p.price np (dok u.email))
            else none) := by
  constructor
  · simp only [updateProperty, hp]
    rfl
  · rw [updateProperty_trace_sends db now dok pid input p hp, hprice]
    simp only [notifTraceOf, sendPriceChangeNotification]
    rw [if_pos hne]
    by_cases hnil : db.users.filter (fun u =>
        ((db.wishlist.filter (fun w => w.propertyId == pid)).map
          (fun w => w.userId)).contains u.id) = []
    · rw [hnil]
      simp
    · rw [if_pos (by simpa [List.length_pos] using hnil)]

/-- C2 witness: price change 100 → 200 on a property wished by a user
with an email and one without; the delivery oracle fails every send and
the update still succeeds, with exactly one dispatch recorded. -/
theorem c2_price_change_notifications_witness :
    (updateProperty dbFull 7 (fun _ => false) "p1"
        { price := some 200 }).2.2.isOk = true ∧
      (updateProperty dbFull 7 (fun _ => false) "p1"
          { price := some 200 }).2.1.filter Effect.isSend
        = (dbFull.users.filter (fun u =>
            ((dbFull.wishlist.filter (fun w => w.propertyId == "p1")).map
              (fun w => w.userId)).contains u.id)).filterMap (fun u =>
            if u.email ≠ "" then
              some (Effect.sendNotification u.email sampleProperty.title
                (strOr sampleProperty.address "N/A") sampleProperty.price 200
                ((fun _ => false) u.email))
            else none) :=
  c2_price_change_notifications dbFull 7 (fun _ => false) "p1"
    { price := some 200 } sampleProperty 200 (by decide) rfl (by decide)

/-! ### C10: redacted owner projection in getProperties output -/

/-- C10: under every filter value, each aggregate's owner field is the
ownerProj redaction of the joined owner row — exactly the four fields
id/email/username/role (the OwnerOut type has no others, so the
sensitive columns the "active" branch's SELECT pulls in — such as
paypalCredentials, isEmailVerified, listingLimit — never reach the
output), degrading to empty strings when the owner row is missing. -/
theorem c10_owner_projection (db : DB) (fp uid : Option String)
    (r : PropertyWithRelations) (hr : r ∈ getProperties db fp uid) :
    r.owner = ownerProj (db.users.find? (fun u => u.id == r.ownerId)) ∧
      (db.users.find? (fun u => u.id == r.ownerId) = none →
        r.owner = { id := "", email := "", username := "", role := "" }) := by
  have main : r.owner
      = ownerProj (db.users.find? (fun u => u.id == r.ownerId)) := by
    simp only [getProperties] at hr
    by_cases hc : ((filteredProperties db (fp.getD "active")).map
        (fun p => (p, db.users.find? (fun u => u.id == p.ownerId)))).length = 0
    · rw [if_pos hc] at hr
      simp at hr
    · rw [if_neg hc] at hr
      obtain ⟨pw, hpw, hmk⟩ := List.mem_map.mp hr
      obtain ⟨pair, w⟩ := pw
      have h1 : pair ∈ (filteredProperties db (fp.getD "active")).map
          (fun p => (p, db.users.find? (fun u => u.id == p.ownerId))) :=
        (List.of_mem_zip hpw).1
      obtain ⟨q, _, hq2⟩ := List.mem_map.mp h1
      subst hmk
      rw [← hq2]
  exact ⟨main, fun hnone => by rw [main, hnone]; rfl⟩

/-- C10 witness: the first aggregate of the "active" listing over the
populated store. -/
theorem c10_owner_projection_witness :
    ((getProperties dbFull (some "active") none).headD emptyPWR).owner
        = ownerProj (dbFull.users.find? (fun u => u.id ==
            ((getProperties dbFull (some "active") none).headD
              emptyPWR).ownerId)) ∧
      (dbFull.users.find? (fun u => u.id ==
          ((getProperties dbFull (some "active") none).headD
            emptyPWR).ownerId) = none →
        ((getProperties dbFull (some "active") none).headD emptyPWR).owner
          = { id := "", email := "", username := "", role := "" }) :=
  c10_owner_projection dbFull (some "active") none _ (by decide)

/-! ### C8: de-duplicating fold of getProperty's multi-join

Generic lemmas about folding `pushDedup` over the option rows produced
by the join cross-product. -/

section Dedup

variable {α : Type} (key : α → String)

theorem pushDedup_mem_key (acc : List α) (x : α) :
    ((pushDedup key acc (some x)).any (fun y => key y == key x)) = true := by
  simp only [pushDedup]
  by_cases h : acc.any (fun y => key y == key x)
  · rw [if_pos h]
    exact h
  · rw [if_neg h]
    simp [List.any_append]

theorem pushDedup_mono (acc : List α) (o : Option α) (k : String)
    (h : acc.any (fun y => key y == k) = true) :
    (pushDedup key acc o).any (fun y => key y == k) = true := by
  cases o with
  | none => exact h
  | some x =>
    simp only [pushDedup]
    split
    · exact h
    · simp [List.any_append, h]

theorem pushDedup_already (acc : List α) (x : α)
    (h : acc.any (fun y => key y == key x) = true) :
    pushDedup key acc (some x) = acc := by
  simp [pushDedup, h]

theorem pushDedup_idem (acc : List α) (o : Option α) :
    pushDedup key (pushDedup key acc o) o = pushDedup key acc o := by
  cases o with
  | none => rfl
  | some x => exact pushDedup_already key _ x (pushDedup_mem_key key acc x)

theorem foldl_pushDedup_mono (L : List (Option α)) (acc : List α) (k : String)
    (h : acc.any (fun y => key y == k) = true) :
    ((L.foldl (pushDedup key) acc).any (fun y => key y == k)) = true := by
  induction L generalizing acc with
  | nil => exact h
  | cons o t ih => exact ih _ (pushDedup_mono key acc o k h)

theorem foldl_pushDedup_noop (L : List (Option α)) (acc : List α)
    (h : ∀ x, some x ∈ L → acc.any (fun y => key y == key x) = true) :
    L.foldl (pushDedup key) acc = acc := by
  induction L with
  | nil => rfl
  | cons o t ih =>
    cases o with
    | none => exact ih (fun x hx => h x (List.mem_cons_of_mem _ hx))
    | some x =>
      rw [List.foldl_cons,
        pushDedup_already key acc x (h x (List.mem_cons_self _ _))]
      exact ih (fun y hy => h y (List.mem_cons_of_mem _ hy))

theorem foldl_pushDedup_keys (S : List (Option α)) (acc : List α) :
    ∀ x, some x ∈ S →
      ((S.foldl (pushDedup key) acc).any (fun y => key y == key x)) = true := by
  induction S generalizing acc with
  | nil =>
    intro x hx
    simp at hx
  | cons o t ih =>
    intro x hx
    rcases List.mem_cons.mp hx with h1 | h2
    · rw [List.foldl_cons, ← h1]
      exact foldl_pushDedup_mono key t _ _ (pushDedup_mem_key key acc x)
    · rw [List.foldl_cons]
      exact ih _ x h2

theorem foldl_pushDedup_repeat {β : Type} (S : List (Option α)) (acc : List α)
    (copies : List β) :
    (copies.flatMap (fun _ => S)).foldl (pushDedup key)
        (S.foldl (pushDedup key) acc)
      = S.foldl (pushDedup key) acc := by
  induction copies with
  | nil => rfl
  | cons b t ih =>
    rw [List.flatMap_cons, List.foldl_append,
      foldl_pushDedup_noop key S _ (foldl_pushDedup_keys key S acc)]
    exact ih

theorem foldl_pushDedup_flatMap_const {β : Type} (copies : List β)
    (S : List (Option α)) (acc : List α) (hcne : copies ≠ []) :
    (copies.flatMap (fun _ => S)).foldl (pushDedup key) acc
      = S.foldl (pushDedup key) acc := by
  cases copies with
  | nil => exact absurd rfl hcne
  | cons c t =>
    rw [List.flatMap_cons, List.foldl_append]
    exact foldl_pushDedup_repeat key S acc t

theorem foldl_pushDedup_block (o : Option α) :
    ∀ (block : List (Option α)) (acc : List α), block ≠ [] →
      (∀ b ∈ block, b = o) →
      block.foldl (pushDedup key) acc = pushDedup key acc o := by
  intro block
  induction block with
  | nil =>
    intro acc h _
    exact absurd rfl h
  | cons b t ih =>
    intro acc _ hall
    have hb : b = o := hall b (List.mem_cons_self _ _)
    subst hb
    rw [List.foldl_cons]
    by_cases ht : t = []
    · subst ht
      rfl
    · rw [ih _ ht (fun b2 hb2 => hall b2 (List.mem_cons_of_mem _ hb2)),
        pushDedup_idem]

theorem foldl_pushDedup_flatMap (blockOf : Option α → List (Option α)) :
    ∀ (l : List (Option α)) (acc : List α),
      (∀ o ∈ l, blockOf o ≠ []) →
      (∀ o ∈ l, ∀ b ∈ blockOf o, b = o) →
      (l.flatMap blockOf).foldl (pushDedup key) acc
        = l.foldl (pushDedup key) acc := by
  intro l
  induction l with
  | nil =>
    intro acc _ _
    rfl
  | cons o t ih =>
    intro acc hne hall
    rw [List.flatMap_cons, List.foldl_append,
      foldl_pushDedup_block key o (blockOf o) acc
        (hne o (List.mem_cons_self _ _)) (hall o (List.mem_cons_self _ _)),
      List.foldl_cons]
    exact ih _ (fun o2 h2 => hne o2 (List.mem_cons_of_mem _ h2))
      (fun o2 h2 => hall o2 (List.mem_cons_of_mem _ h2))

theorem foldl_pushDedup_new :
    ∀ (l : List α) (acc : List α), (l.map key).Nodup →
      (∀ x ∈ l, acc.any (fun y => key y == key x) = false) →
      (l.map some).foldl (pushDedup key) acc = acc ++ l := by
  intro l
  induction l with
  | nil =>
    intro acc _ _
    simp
  | cons a t ih =>
    intro acc hnd hfresh
    rw [List.map_cons, List.foldl_cons]
    have hpush : pushDedup key acc (some a) = acc ++ [a] := by
      simp [pushDedup, hfresh a (List.mem_cons_self _ _)]
    rw [hpush,
      ih (acc ++ [a]) (by simpa using (List.nodup_cons.mp (by simpa using hnd)).2) ?fresh]
    · simp
    case fresh =>
      intro x hx
      have h1 := hfresh x (List.mem_cons_of_mem _ hx)
      have h2 : key a ≠ key x := by
        intro hkeq
        have hmem : key x ∈ t.map key := List.mem_map_of_mem key hx
        rw [← hkeq] at hmem
        exact (List.nodup_cons.mp (by simpa using hnd)).1 hmem
      simp [List.any_append, h1]
      exact fun h => absurd h h2

theorem leftJoinOpts_ne_nil (l : List α) : leftJoinOpts l ≠ [] := by
  cases l <;> simp [leftJoinOpts]

theorem foldl_pushDedup_leftJoinOpts (l : List α)
    (hnd : (l.map key).Nodup) :
    (leftJoinOpts l).foldl (pushDedup key) [] = l := by
  cases l with
  | nil => rfl
  | cons a t =>
    have hLJ : leftJoinOpts (a :: t) = (a :: t).map some := rfl
    rw [hLJ, foldl_pushDedup_new key (a :: t) [] hnd (fun x _ => rfl)]
    simp

end Dedup

theorem flatMap_ne_nil {α β : Type} (l : List α) (f : α → List β)
    (hl : l ≠ []) (hf : ∀ a ∈ l, f a ≠ []) : l.flatMap f ≠ [] := by
  cases l with
  | nil => exact absurd rfl hl
  | cons a t =>
    rw [List.flatMap_cons]
    intro h
    rcases List.append_eq_nil.mp h with ⟨h1, _⟩
    exact hf a (List.mem_cons_self _ _) h1

theorem map_ne_nil {α β : Type} (l : List α) (f : α → β) (hl : l ≠ []) :
    l.map f ≠ [] := by
  cases l with
  | nil => exact absurd rfl hl
  | cons a t => simp

theorem foldRow_of_ne (w : Bool) (acc : PropertyWithRelations) (row : JoinRow)
    (h : acc.id ≠ "") :
    foldRow w acc row = { acc with
      images := pushDedup (fun i => i.id) acc.images row.image,
      views := pushDedup (fun v => v.id) acc.views row.view,
      pricingHistory :=
        pushDedup (fun q => q.id) acc.pricingHistory row.pricing } := by
  simp [foldRow, h]

theorem foldl_foldRow_pushes (w : Bool) :
    ∀ (rows : List JoinRow) (acc : PropertyWithRelations), acc.id ≠ "" →
      rows.foldl (foldRow w) acc = { acc with
        images := (rows.map (fun r => r.image)).foldl
          (pushDedup (fun i => i.id)) acc.images,
        views := (rows.map (fun r => r.view)).foldl
          (pushDedup (fun v => v.id)) acc.views,
        pricingHistory := (rows.map (fun r => r.pricing)).foldl
          (pushDedup (fun q => q.id)) acc.pricingHistory } := by
  intro rows
  induction rows with
  | nil =>
    intro acc _
    rfl
  | cons r t ih =>
    intro acc h
    have h2 : (foldRow w acc r).id ≠ "" := by
      rw [foldRow_of_ne w acc r h]
      exact h
    rw [List.foldl_cons, ih (foldRow w acc r) h2, foldRow_of_ne w acc r h]
    rfl

theorem foldl_foldRow_from_cons (w : Bool) (r0 : JoinRow)
    (tail : List JoinRow) (hid : r0.property.id ≠ "") :
    (r0 :: tail).foldl (foldRow w) emptyPWR
      = { toProperty := r0.property,
          images := ((r0 :: tail).map (fun r => r.image)).foldl
            (pushDedup (fun i => i.id)) [],
          views := ((r0 :: tail).map (fun r => r.view)).foldl
            (pushDedup (fun v => v.id)) [],
          pricingHistory := ((r0 :: tail).map (fun r => r.pricing)).foldl
            (pushDedup (fun q => q.id)) [],
          owner := ownerProj r0.owner, isWished := w } := by
  rw [List.foldl_cons]
  have h1 : foldRow w emptyPWR r0
      = { toProperty := r0.property,
          images := pushDedup (fun i => i.id) [] r0.image,
          views := pushDedup (fun v => v.id) [] r0.view,
          pricingHistory := pushDedup (fun q => q.id) [] r0.pricing,
          owner := ownerProj r0.owner, isWished := w } := by
    rfl
  rw [h1, foldl_foldRow_pushes w tail _ hid]
  rfl

theorem crossRows_ne_nil (p : Property) (own : Option User) (wc : Bool)
    (imgs : List PropertyImage) (vws : List PropertyView)
    (phs : List PricingHistory) :
    crossRows p own wc imgs vws phs ≠ [] := by
  apply flatMap_ne_nil _ _ (leftJoinOpts_ne_nil imgs)
  intro a _
  apply flatMap_ne_nil _ _ (leftJoinOpts_ne_nil vws)
  intro b _
  exact map_ne_nil _ _ (leftJoinOpts_ne_nil phs)

theorem crossRows_map_image (p : Property) (own : Option User) (wc : Bool)
    (imgs : List PropertyImage) (vws : List PropertyView)
    (phs : List PricingHistory) :
    (crossRows p own wc imgs vws phs).map (fun r => r.image)
      = (leftJoinOpts imgs).flatMap (fun img =>
          (leftJoinOpts vws).flatMap (fun _ =>
            (leftJoinOpts phs).map (fun _ => img))) := by
  simp [crossRows, List.map_flatMap, List.map_map, Function.comp_def]

theorem crossRows_map_view (p : Property) (own : Option User) (wc : Bool)
    (imgs : List PropertyImage) (vws : List PropertyView)
    (phs : List PricingHistory) :
    (crossRows p own wc imgs vws phs).map (fun r => r.view)
      = (leftJoinOpts imgs).flatMap (fun _ =>
          (leftJoinOpts vws).flatMap (fun v =>
            (leftJoinOpts phs).map (fun _ => v))) := by
  simp [crossRows, List.map_flatMap, List.map_map, Function.comp_def]

theorem crossRows_map_pricing (p : Property) (own : Option User) (wc : Bool)
    (imgs : List PropertyImage) (vws : List PropertyView)
    (phs : List PricingHistory) :
    (crossRows p own wc imgs vws phs).map (fun r => r.pricing)
      = (leftJoinOpts imgs).flatMap (fun _ =>
          (leftJoinOpts vws).flatMap (fun _ => leftJoinOpts phs)) := by
  simp [crossRows, List.map_flatMap, List.map_map, Function.comp_def]

/-- Folding the de-duplicating reduce over the full join cross product
recovers exactly the three child sets (given distinct child ids). -/
theorem fold_over_crossRows (w wc : Bool) (p : Property) (own : Option User)
    (imgs : List PropertyImage) (vws : List PropertyView)
    (phs : List PricingHistory) (hpne : p.id ≠ "")
    (hi : (imgs.map (fun i => i.id)).Nodup)
    (hv : (vws.map (fun v => v.id)).Nodup)
    (hq : (phs.map (fun q => q.id)).Nodup) :
    (crossRows p own wc imgs vws phs).foldl (foldRow w) emptyPWR
      = { toProperty := p, images := imgs, views := vws,
          pricingHistory := phs, owner := ownerProj own, isWished := w } := by
  obtain ⟨i0, restI, hI⟩ : ∃ i0 restI, leftJoinOpts imgs = i0 :: restI := by
    cases imgs with
    | nil => exact ⟨none, [], rfl⟩
    | cons a t => exact ⟨some a, t.map some, rfl⟩
  obtain ⟨v0, restV, hV⟩ : ∃ v0 restV, leftJoinOpts vws = v0 :: restV := by
    cases vws with
    | nil => exact ⟨none, [], rfl⟩
    | cons a t => exact ⟨some a, t.map some, rfl⟩
  obtain ⟨q0, restQ, hQ⟩ : ∃ q0 restQ, leftJoinOpts phs = q0 :: restQ := by
    cases phs with
    | nil => exact ⟨none, [], rfl⟩
    | cons a t => exact ⟨some a, t.map some, rfl⟩
  obtain ⟨tail, hrows⟩ : ∃ tail, crossRows p own wc imgs vws phs
      = { property := p, image := i0, view := v0, pricing := q0,
          owner := own, isWished := wc } :: tail := by
    rw [crossRows, hI, hV, hQ]
    simp [List.flatMap_cons, List.map_cons, List.cons_append]
  rw [hrows, foldl_foldRow_from_cons w _ tail hpne, ← hrows]
  have himgs : ((crossRows p own wc imgs vws phs).map
        (fun r => r.image)).foldl (pushDedup (fun i => i.id)) [] = imgs := by
    rw [crossRows_map_image,
      foldl_pushDedup_flatMap (fun i : PropertyImage => i.id) _ _ _ ?bne ?ball,
      foldl_pushDedup_leftJoinOpts _ _ hi]
    case bne =>
      intro o _
      apply flatMap_ne_nil _ _ (leftJoinOpts_ne_nil vws)
      intro b _
      exact map_ne_nil _ _ (leftJoinOpts_ne_nil phs)
    case ball =>
      intro o _ b hb
      simp only [List.mem_flatMap, List.mem_map] at hb
      obtain ⟨_, _, _, _, hbo⟩ := hb
      exact hbo.symm
  have hviews : ((crossRows p own wc imgs vws phs).map
        (fun r => r.view)).foldl (pushDedup (fun v => v.id)) [] = vws := by
    rw [crossRows_map_view,
      foldl_pushDedup_flatMap_const (fun v : PropertyView => v.id) _ _ _
        (leftJoinOpts_ne_nil imgs),
      foldl_pushDedup_flatMap (fun v : PropertyView => v.id) _ _ _ ?bne2 ?ball2,
      foldl_pushDedup_leftJoinOpts _ _ hv]
    case bne2 =>
      intro o _
      exact map_ne_nil _ _ (leftJoinOpts_ne_nil phs)
    case ball2 =>
      intro o _ b hb
      simp only [List.mem_map] at hb
      obtain ⟨_, _, hbo⟩ := hb
      exact hbo.symm
  have hphs : ((crossRows p own wc imgs vws phs).map
        (fun r => r.pricing)).foldl (pushDedup (fun q => q.id)) [] = phs := by
    rw [crossRows_map_pricing,
      foldl_pushDedup_flatMap_const (fun q : PricingHistory => q.id) _ _ _
        (leftJoinOpts_ne_nil imgs),
      foldl_pushDedup_flatMap_const (fun q : PricingHistory => q.id) _ _ _
        (leftJoinOpts_ne_nil vws),
      foldl_pushDedup_leftJoinOpts _ _ hq]
  rw [himgs, hviews, hphs]

/-- C8: for an existing property (unique row for its id, distinct child
row ids), getProperty returns an aggregate holding exactly the N stored
images, M stored views and P stored pricing-history rows — one entry per
distinct child id, de-duplicated out of the join cross product — plus
the redacted owner projection and the wish flag. -/
theorem c8_get_property_dedup (db : DB) (pid : String) (uid : Option String)
    (p : Property)
    (hp : db.properties.filter (fun q => q.id == pid) = [p])
    (hpne : p.id ≠ "")
    (hi : ((db.propertyImages.filter (fun i => i.propertyId == p.id)).map
      (fun i => i.id)).Nodup)
    (hv : ((db.propertyViews.filter (fun v => v.propertyId == p.id)).map
      (fun v => v.id)).Nodup)
    (hq : ((db.pricingHistory.filter (fun q2 => q2.propertyId == p.id)).map
      (fun q2 => q2.id)).Nodup) :
    getProperty db pid uid = .ok
      { toProperty := p,
        images := db.propertyImages.filter (fun i => i.propertyId == p.id),
        views := db.propertyViews.filter (fun v => v.propertyId == p.id),
        pricingHistory :=
          db.pricingHistory.filter (fun q2 => q2.propertyId == p.id),
        owner := ownerProj (db.users.find? (fun u => u.id == p.ownerId)),
        isWished := isPropertyWished db pid uid } := by
  have hrows : getPropertyRows db pid uid = joinRowsFor db uid p := by
    rw [getPropertyRows, hp]
    simp [List.flatMap_cons]
  have hne : joinRowsFor db uid p ≠ [] := crossRows_ne_nil _ _ _ _ _ _
  simp only [getProperty, hrows]
  rw [if_neg (by simpa [List.length_eq_zero] using hne)]
  simp only [joinRowsFor]
  rw [fold_over_crossRows _ _ _ _ _ _ _ hpne hi hv hq]

/-- C8 witness: p1 with two images, one view, two pricing rows. -/
theorem c8_get_property_dedup_witness :
    getProperty dbFull "p1" none = .ok
      { toProperty := sampleProperty,
        images := dbFull.propertyImages.filter
          (fun i => i.propertyId == sampleProperty.id),
        views := dbFull.propertyViews.filter
          (fun v => v.propertyId == sampleProperty.id),
        pricingHistory := dbFull.pricingHistory.filter
          (fun q2 => q2.propertyId == sampleProperty.id),
        owner := ownerProj (dbFull.users.find?
          (fun u => u.id == sampleProperty.ownerId)),
        isWished := isPropertyWished dbFull "p1" none } :=
  c8_get_property_dedup dbFull "p1" none sampleProperty (by decide)
    (by decide) (by decide) (by decide) (by decide)

end EstateFlow
